import Mathlib

set_option maxHeartbeats 1000000

/-!
Shallow embedding of the role-management core (`src/core/roles.rs`) of the
sylph-verifier repository, together with proofs about its behaviour.

Conventions of the embedding:
* `GuildId`, `UserId`, `RoleId`, `RobloxUserID` and `SystemTime` are `Nat`.
* The two persisted relations (`guild_active_rules`, `guild_custom_rules`) are
  lists of rows, unique per rule name in the database (hypotheses where needed).
* Rust `HashMap`s built by the code are association lists; the insertion
  functions mirror the source operations (`HashMap::insert`, `get_mut`).
* Clock reads (`SystemTime::now()`) become explicit `now : Nat` arguments.
* Database / config access cannot fail in the embedding, so functions that in
  Rust return `Result<T>` where the only errors are user-facing command errors
  are modelled as `Except String T`; fatal storage errors are out of scope.
-/

abbrev RoleId := Nat
abbrev SystemTime := Nat

deriving instance DecidableEq for Except

/-- Modelled from the spec: `VerificationRule` lives in the `roblox` module,
which is not part of the given source.  Per §3 a compiled rule carries an
instruction cost and an external-lookup cost; its evaluator is abstracted as a
function parameter where needed. -/
structure VerificationRule where
  instructions : Nat
  webRequests : Nat
deriving DecidableEq

/-- Modelled from the spec: `VerificationSet` lives in the `roblox` module,
which is not part of the given source.  Per §3 it is an ordered collection of
(rule name → compiled rule) built from the active rule names of one
configuration snapshot. -/
structure VerificationSet where
  rules : List (String × VerificationRule)
deriving DecidableEq

/-- Aggregate instruction cost: per the spec (§3), the sum of member costs. -/
def VerificationSet.instruction_count (s : VerificationSet) : Nat :=
  (s.rules.map (fun p => p.2.instructions)).sum

/-- Aggregate external-lookup cost: per the spec (§3), the sum of member costs. -/
def VerificationSet.max_web_requests (s : VerificationSet) : Nat :=
  (s.rules.map (fun p => p.2.webRequests)).sum

/-- `ConfiguredRole` from `roles.rs`: one rule slot of a tenant. -/
structure ConfiguredRole where
  role_id : Option RoleId
  custom_rule : Option String
  last_updated : SystemTime
deriving DecidableEq

/-- `VerificationSetStatus` from `roles.rs`: the per-guild cache entry. -/
inductive VerificationSetStatus where
  | NotCompiled
  | Error (msg : String)
  | Compiled (set : VerificationSet) (roleInfo : List (String × RoleId))
deriving DecidableEq

/-- `VerificationSetStatus::is_compiled` from `roles.rs`. -/
def VerificationSetStatus.is_compiled : VerificationSetStatus → Bool
  | .NotCompiled => false
  | _ => true

/-- `AssignedRole` from `roles.rs`: one evaluation result. -/
structure AssignedRole where
  rule : String
  role_id : RoleId
  is_assigned : Bool
deriving DecidableEq

/-- The configuration keys consumed by `roles.rs`
(`RolesEnableLimits`, `RolesMaxAssigned`, `RolesMaxCustomRules`,
`RolesMaxInstructions`, `RolesMaxWebRequests`). -/
structure GuildConfig where
  limitsEnabled : Bool
  maxAssigned : Nat
  maxCustom : Nat
  maxInstructions : Nat
  maxWebRequests : Nat
deriving DecidableEq

/-- Lookup in the association lists standing for the Rust `HashMap`s. -/
def lookupRole (m : List (String × ConfiguredRole)) (k : String) :
    Option ConfiguredRole :=
  (m.find? (fun p => p.1 == k)).map (fun p => p.2)

/-- The key list of the association-list map. -/
def rKeys (m : List (String × ConfiguredRole)) : List String :=
  m.map (fun p => p.1)

/-- `HashMap::insert` on the association-list representation: replaces the
binding when the key is present, appends it otherwise. -/
def insertRole (m : List (String × ConfiguredRole)) (k : String)
    (v : ConfiguredRole) : List (String × ConfiguredRole) :=
  if m.any (fun p => p.1 == k) then
    m.map (fun p => if p.1 == k then (k, v) else p)
  else m ++ [(k, v)]

/-- The in-place mutation done by the second loop of
`get_configuration_internal` when the rule name is already present: attach the
custom condition and raise `last_updated` when the custom row is newer. -/
def applyCustom (r : ConfiguredRole) (cond : String) (t : SystemTime) :
    ConfiguredRole :=
  { r with custom_rule := some cond,
           last_updated := if r.last_updated < t then t else r.last_updated }

/-- One step of the second loop of `get_configuration_internal`: `get_mut`
followed by mutation when found, `insert` of a fresh slot otherwise. -/
def addCustomRule (m : List (String × ConfiguredRole)) (k cond : String)
    (t : SystemTime) : List (String × ConfiguredRole) :=
  match m.find? (fun p => p.1 == k) with
  | some pr =>
      m.map (fun p => if p.1 == k then (k, applyCustom pr.2 cond t) else p)
  | none => m ++ [(k, ⟨none, some cond, t⟩)]

/-- `get_configuration_internal` from `roles.rs`: join the two persisted
relations into one map, also returning the two row counts.  The input lists
are the rows of `guild_active_rules` (name, role id, last updated) and
`guild_custom_rules` (name, condition, last updated) for the guild. -/
def get_configuration_internal
    (active_rules_list : List (String × RoleId × SystemTime))
    (custom_rules_list : List (String × String × SystemTime)) :
    List (String × ConfiguredRole) × Nat × Nat :=
  let active_rules_count := active_rules_list.length
  let custom_rules_count := custom_rules_list.length
  let map1 := active_rules_list.foldl
    (fun m x => insertRole m x.1 ⟨some x.2.1, none, x.2.2⟩) []
  let map2 := custom_rules_list.foldl
    (fun m x => addCustomRule m x.1 x.2.1 x.2.2) map1
  (map2, active_rules_count, custom_rules_count)

/-- Modelled from the spec: rule resolution inside `VerificationSet::compile`
(the `roblox` module is not part of the given source).  Per §4.1 a built-in
rule resolves by name against the fixed registry, otherwise the custom
condition (if any) is parsed, and a name with neither is a compile error
naming the missing rule. -/
def resolveRule (builtins : String → Option VerificationRule)
    (parse : String → Except String VerificationRule)
    (getCustom : String → Option String) (name : String) :
    Except String VerificationRule :=
  match builtins name with
  | some r => .ok r
  | none =>
    match getCustom name with
    | some cond => parse cond
    | none => .error ("No such rule " ++ name ++ ".")

/-- Modelled from the spec: the per-name resolution loop of
`VerificationSet::compile`; the first failing name aborts compilation. -/
def compileRules (resolve : String → Except String VerificationRule) :
    List String → Except String (List (String × VerificationRule))
  | [] => .ok []
  | n :: rest =>
    match resolve n with
    | .error e => .error e
    | .ok r =>
      match compileRules resolve rest with
      | .error e => .error e
      | .ok rs => .ok ((n, r) :: rs)

/-- Modelled from the spec: `VerificationSet::compile` (the `roblox` module is
not part of the given source).  Per §4.1 it aggregates the resolved active
rules into one set, or reports a user-facing compile error. -/
def VerificationSet.compile (builtins : String → Option VerificationRule)
    (parse : String → Except String VerificationRule)
    (names : List String) (getCustom : String → Option String) :
    Except String VerificationSet :=
  (compileRules (resolveRule builtins parse getCustom) names).map
    (fun rs => ⟨rs⟩)

/-- The `active_rule_names` vector built by `build_for_guild`: the names of
the configured rules that have a target role assigned. -/
def guildActiveNames (configuration : List (String × ConfiguredRole)) :
    List String :=
  (configuration.filter (fun p => p.2.role_id.isSome)).map (fun p => p.1)

/-- The `active_rules` map built by `build_for_guild`: rule name to assigned
role id, over the rules that have a target role assigned. -/
def guildActiveInfo (configuration : List (String × ConfiguredRole)) :
    List (String × RoleId) :=
  configuration.filterMap (fun p => p.2.role_id.map (fun rid => (p.1, rid)))

/-- The closure `build_for_guild` passes to `VerificationSet::compile`: the
custom condition text of a rule name, when one is configured. -/
def guildGetCustom (configuration : List (String × ConfiguredRole)) :
    String → Option String :=
  fun n => (lookupRole configuration n).bind (fun x => x.custom_rule)

/-- `build_for_guild` from `roles.rs`.  The guild's database rows and the
configuration values are explicit arguments; `builtins` and `parse` stand for
the built-in rule registry and `VerificationRule::from_str`.  Compile errors
are `CommandError`s in the source and so become `Error` statuses; fatal errors
are out of scope of the embedding, hence the function is total. -/
def build_for_guild (cfg : GuildConfig)
    (builtins : String → Option VerificationRule)
    (parse : String → Except String VerificationRule)
    (active_rules_list : List (String × RoleId × SystemTime))
    (custom_rules_list : List (String × String × SystemTime)) :
    VerificationSetStatus :=
  let r := get_configuration_internal active_rules_list custom_rules_list
  let configuration := r.1
  let active_count := r.2.1
  let custom_count := r.2.2
  if cfg.limitsEnabled && decide (active_count > cfg.maxAssigned) then
    .Error ("Too many roles are configured to be assigned. ("
      ++ toString active_count ++ " roles are active, maximum is "
      ++ toString cfg.maxAssigned ++ ".)")
  else if cfg.limitsEnabled && decide (custom_count > cfg.maxCustom) then
    .Error ("Too many custom roles exist. ("
      ++ toString custom_count ++ " custom roles exist, maximum is "
      ++ toString cfg.maxCustom ++ ".)")
  else
    match VerificationSet.compile builtins parse (guildActiveNames configuration)
        (guildGetCustom configuration) with
    | .ok set =>
      if cfg.limitsEnabled && decide (set.instruction_count > cfg.maxInstructions) then
        .Error ("Role configuration is too complex. (Complexity is "
          ++ toString set.instruction_count ++ ", maximum is "
          ++ toString cfg.maxInstructions ++ ".)")
      else if cfg.limitsEnabled && decide (set.max_web_requests > cfg.maxWebRequests) then
        .Error ("Role configuration makes to many web requests. (Configuration makes "
          ++ toString set.max_web_requests ++ " web requests, maximum is "
          ++ toString cfg.maxWebRequests ++ ".)")
      else
        .Compiled set (guildActiveInfo configuration)
    | .error e => .Error e

/-- `update_cached_verification` from `roles.rs`, as a function on the cache
entry.  The entry is read twice in the source (once under the read lock, once
under the write lock after recompiling); to keep the concurrent re-check
visible, the value observed at each point is a separate argument
(`entryAtRead`, `entryAtWrite`); the sequential execution is the special case
where they coincide (`update_cached_seq`).  `buildResult` is the value
`build_for_guild` produced; the function returns the entry's final value. -/
def update_cached_verification (entryAtRead entryAtWrite : VerificationSetStatus)
    (buildResult : VerificationSetStatus) (force : Bool) : VerificationSetStatus :=
  if force || !entryAtRead.is_compiled then
    (if force || !entryAtWrite.is_compiled then buildResult else entryAtWrite)
  else entryAtRead

/-- `update_cached_verification` without a racing writer: the entry seen at
read time is still there at write time. -/
def update_cached_seq (entry buildResult : VerificationSetStatus)
    (force : Bool) : VerificationSetStatus :=
  update_cached_verification entry entry buildResult force

/-- Modelled from the spec: the `Display` rendering of a compiled set
(`format!("{}", set)`; the `roblox` module is not part of the given source).
Only its totality matters to the claims. -/
def formatSet (s : VerificationSet) : String :=
  String.intercalate ", " (s.rules.map (fun p => p.1))

/-- `explain_rule_set` from `roles.rs`, applied to the cache entry left by its
non-forced `update_cached_verification` call.  `none` models the
`unimplemented!()` panic on the `NotCompiled` branch. -/
def explain_rule_set (status : VerificationSetStatus) : Option String :=
  match status with
  | .Compiled set _ => some (formatSet set)
  | .Error err => some ("Could not compile: " ++ err)
  | .NotCompiled => none

/-- Lookup in the rule-name → role-id map of a `Compiled` entry.  The source
indexes the map directly (`role_info[rule_name]`), which panics on a missing
key; the option result makes that panic visible as `none`. -/
def lookupRoleId (info : List (String × RoleId)) (k : String) : Option RoleId :=
  (info.find? (fun p => p.1 == k)).map (fun p => p.2)

/-- The result-collection loop of `get_assigned_roles`: for each evaluated
rule, look its target role up in the `role_info` map and push an
`AssignedRole`; `none` models the panic of the direct `role_info[rule_name]`
map index on a missing key. -/
def collectAssigned (info : List (String × RoleId)) :
    List (String × Bool) → Option (List AssignedRole)
  | [] => some []
  | q :: rest =>
    match lookupRoleId info q.1 with
    | none => none
    | some rid =>
      (collectAssigned info rest).map (fun v => AssignedRole.mk q.1 rid q.2 :: v)

/-- `get_assigned_roles` from `roles.rs`, applied to the cache entry left by
its non-forced `update_cached_verification` call.  `eval` abstracts
`VerificationSet::verify` on one rule for the given Roblox user (modelled from
the spec: §4.4, every rule of the set is evaluated, yielding its name paired
with whether it is satisfied).  The outer `none` models a panic: either the
`unreachable!()` on the `NotCompiled` branch or the `role_info[rule_name]`
index on a missing key; `some (.error …)` is the user-facing command error on
the `Error` branch. -/
def get_assigned_roles (status : VerificationSetStatus)
    (eval : String → VerificationRule → Bool) :
    Option (Except String (List AssignedRole)) :=
  match status with
  | .Compiled set info =>
      (collectAssigned info (set.rules.map (fun p => (p.1, eval p.1 p.2)))).map
        Except.ok
  | .Error _ =>
      some (.error ("There is a problem with this server's role configuration. "
        ++ "Please contact the server admins."))
  | .NotCompiled => none

/-- The persisted per-guild rule rows: `guild_active_rules` and
`guild_custom_rules`. -/
structure RolesDb where
  active : List (String × RoleId × SystemTime)
  custom : List (String × String × SystemTime)
deriving DecidableEq

/-- The `REPLACE INTO guild_active_rules` statement of `set_active_role`:
the row for the rule name (unique per name) is replaced. -/
def replaceActive (l : List (String × RoleId × SystemTime)) (name : String)
    (rid : RoleId) (now : SystemTime) : List (String × RoleId × SystemTime) :=
  (l.filter (fun p => p.1 != name)) ++ [(name, rid, now)]

/-- The `DELETE FROM guild_active_rules` statement of `set_active_role`. -/
def deleteActive (l : List (String × RoleId × SystemTime)) (name : String) :
    List (String × RoleId × SystemTime) :=
  l.filter (fun p => p.1 != name)

/-- `set_active_role` from `roles.rs`.  `hasBuiltin` stands for
`VerificationRule::has_builtin`; `now` is the clock value used for the
replaced row's `last_updated`.  On success it returns the updated database
and the cache entry installed by the forced `refresh_cache` call (the forced
path always installs the fresh `build_for_guild` result). -/
def set_active_role (cfg : GuildConfig) (hasBuiltin : String → Bool)
    (builtins : String → Option VerificationRule)
    (parse : String → Except String VerificationRule)
    (db : RolesDb) (rule_name : String) (discord_role : Option RoleId)
    (now : SystemTime) : Except String (RolesDb × VerificationSetStatus) :=
  let role_exists :=
    hasBuiltin rule_name || db.custom.any (fun p => p.1 == rule_name)
  if !role_exists then
    .error ("No rule name " ++ rule_name ++ " found.")
  else
    let assigned_count := (db.active.filter (fun p => p.1 != rule_name)).length
    if cfg.limitsEnabled && decide (assigned_count + 1 > cfg.maxAssigned) then
      .error ("Too many roles are configured to be assigned. (Including "
        ++ rule_name ++ ", " ++ toString (assigned_count + 1)
        ++ " roles are active, maximum is " ++ toString cfg.maxAssigned ++ ".)")
    else
      let newActive := match discord_role with
        | some rid => replaceActive db.active rule_name rid now
        | none => deleteActive db.active rule_name
      let db2 : RolesDb := { db with active := newActive }
      .ok (db2, build_for_guild cfg builtins parse db2.active db2.custom)

/-- Modelled from the spec: `util::to_english_time` (the `util` module is not
part of the given source); a human-readable rendering of a duration in
seconds. -/
def toEnglishTime (secs : Nat) : String :=
  toString secs ++ " seconds"

/-- Modelled from the spec: `util::english_time_diff` (the `util` module is
not part of the given source); per §4.5 the cooldown error carries the
remaining wait duration, human-readable. -/
def englishTimeDiff (now ends : SystemTime) : String :=
  toEnglishTime (ends - now)

/-- The state touched by `update_user_with_cooldown` for one
(guild, user, is_manual) key: the member state `M` mutated by `update_user`
(abstracted), the in-memory `AtomicSystemTime` cell, and the persisted
`roles_last_updated` row. -/
structure CooldownState (M : Type) where
  member : M
  cell : Option SystemTime
  dbRow : Option SystemTime
deriving DecidableEq

/-- `update_user_with_cooldown` from `roles.rs`.  `upd` abstracts
`update_user` (whose membership effect is out of this function's scope);
`now` is the clock read.  Returns the final state together with the
user-facing command error, `none` on success; on a cooldown error the state
is returned unchanged. -/
def update_user_with_cooldown {M : Type} (cooldown : Nat) (now : SystemTime)
    (upd : M → M) (s : CooldownState M) : CooldownState M × Option String :=
  match s.cell with
  | some last_updated =>
    let cooldown_ends := last_updated + cooldown
    if now < cooldown_ends then
      (s, some ("You can only update your roles once every "
        ++ toEnglishTime cooldown ++ ". Try again in "
        ++ englishTimeDiff now cooldown_ends ++ "."))
    else
      ({ member := upd s.member, cell := some now, dbRow := some now }, none)
  | none =>
      ({ member := upd s.member, cell := some now, dbRow := some now }, none)

/-- The member state used by `assign_roles`: the current group memberships
(`member.roles`, a `HashSet`) and the current nickname (`member.nick`). -/
structure MemberState where
  roles : Finset Nat
  nick : Option String

/-- The membership set computed by `assign_roles`: with an identity, the fold
over `get_assigned_roles` inserting satisfied targets and removing
unsatisfied ones; without an identity, the fold over the configuration
removing every configured target. -/
def computed_roles (config : List (String × ConfiguredRole))
    (assigned : List AssignedRole) (robloxId : Option Nat)
    (orig : Finset Nat) : Finset Nat :=
  match robloxId with
  | some _ =>
      assigned.foldl
        (fun rs r => if r.is_assigned then insert r.role_id rs else rs.erase r.role_id)
        orig
  | none =>
      config.foldl
        (fun rs p => match p.2.role_id with
          | some id => rs.erase id
          | none => rs) orig

/-- The set of every group id that is some rule's configured target. -/
def managedTargets (config : List (String × ConfiguredRole)) : Finset Nat :=
  (config.filterMap (fun p => p.2.role_id)).toFinset

/-- The outcome of `assign_roles`: whether `member.edit` was called at all,
and the role-set / nickname changes passed to it. -/
structure AssignOutcome where
  editIssued : Bool
  newRoles : Option (Finset Nat)
  newNick : Option String

/-- `assign_roles` from `roles.rs`.  `canAccess` is
`util::can_member_access_member` for the bot and the member, `doSetNick` the
`SetNickname` config key, `targetNickname` the looked-up Roblox username (or
`none` when no identity is given), `config` the guild configuration map (the
`roblox_id = None` path), `assigned` the `get_assigned_roles` result (the
`roblox_id = Some` path).  The external `member.edit` mutation is issued iff
a nickname or role-set change was computed. -/
def assign_roles (canAccess doSetNick : Bool) (targetNickname : Option String)
    (config : List (String × ConfiguredRole)) (assigned : List AssignedRole)
    (robloxId : Option Nat) (member : MemberState) : AssignOutcome :=
  let set_nickname : Option String :=
    if canAccess && doSetNick then
      if targetNickname ≠ member.nick then
        some (targetNickname.getD "")
      else none
    else none
  let orig_roles := member.roles
  let roles := computed_roles config assigned robloxId orig_roles
  let set_roles : Option (Finset Nat) :=
    if orig_roles ≠ roles then some roles else none
  { editIssued := set_nickname.isSome || set_roles.isSome,
    newRoles := set_roles, newNick := set_nickname }

/-! ### Helper lemmas -/

theorem build_for_guild_is_compiled (cfg : GuildConfig)
    (builtins : String → Option VerificationRule)
    (parse : String → Except String VerificationRule)
    (a : List (String × RoleId × SystemTime))
    (c : List (String × String × SystemTime)) :
    (build_for_guild cfg builtins parse a c).is_compiled = true := by
  unfold build_for_guild
  dsimp only
  split
  · rfl
  · split
    · rfl
    · split
      · split
        · rfl
        · split
          · rfl
          · rfl
      · rfl

theorem compileRules_ok_names (resolve : String → Except String VerificationRule)
    (names : List String) (rs : List (String × VerificationRule))
    (h : compileRules resolve names = .ok rs) : rs.map (fun p => p.1) = names := by
  induction names generalizing rs with
  | nil =>
    simp only [compileRules] at h
    cases h
    rfl
  | cons n rest ih =>
    simp only [compileRules] at h
    cases hr : resolve n with
    | error e => rw [hr] at h; cases h
    | ok r =>
      rw [hr] at h
      cases hrest : compileRules resolve rest with
      | error e => rw [hrest] at h; cases h
      | ok rs2 =>
        rw [hrest] at h
        cases h
        simp [ih rs2 hrest]

theorem build_for_guild_compiled_info (cfg : GuildConfig)
    (builtins : String → Option VerificationRule)
    (parse : String → Except String VerificationRule)
    (a : List (String × RoleId × SystemTime))
    (c : List (String × String × SystemTime))
    (set : VerificationSet) (info : List (String × RoleId))
    (h : build_for_guild cfg builtins parse a c = .Compiled set info) :
    ∀ n ∈ set.rules.map (fun p => p.1), (lookupRoleId info n).isSome = true := by
  unfold build_for_guild at h
  dsimp only at h
  split at h
  · cases h
  · split at h
    · cases h
    · rename_i hcomp
      split at h
      · rename_i set2 hok
        split at h
        · cases h
        · split at h
          · cases h
          · cases h
            intro n hn
            unfold VerificationSet.compile at hok
            cases hcr : compileRules
                (resolveRule builtins parse
                  (guildGetCustom (get_configuration_internal a c).1))
                (guildActiveNames (get_configuration_internal a c).1) with
            | error e => rw [hcr] at hok; cases hok
            | ok rs =>
              rw [hcr] at hok
              cases hok
              have hnames := compileRules_ok_names _ _ _ hcr
              rw [hnames] at hn
              unfold guildActiveNames at hn
              simp only [List.mem_map, List.mem_filter] at hn
              obtain ⟨p, ⟨hpmem, hpsome⟩, hpn⟩ := hn
              cases hrid : p.2.role_id with
              | none => rw [hrid] at hpsome; cases hpsome
              | some rid =>
                unfold lookupRoleId guildActiveInfo
                rw [Option.isSome_map']
                rw [List.find?_isSome]
                refine ⟨(p.1, rid), ?_, ?_⟩
                · simp only [List.mem_filterMap]
                  exact ⟨p, hpmem, by rw [hrid]; rfl⟩
                · simp [hpn]
      · cases h

theorem collectAssigned_isSome (info : List (String × RoleId))
    (l : List (String × Bool))
    (h : ∀ q ∈ l, (lookupRoleId info q.1).isSome = true) :
    (collectAssigned info l).isSome = true := by
  induction l with
  | nil => rfl
  | cons q rest ih =>
    simp only [collectAssigned]
    cases hq : lookupRoleId info q.1 with
    | none =>
      have := h q (List.mem_cons_self q rest)
      rw [hq] at this
      cases this
    | some rid =>
      dsimp only
      rw [Option.isSome_map']
      exact ih (fun q2 hq2 => h q2 (List.mem_cons_of_mem q hq2))

theorem update_cached_seq_cases (e b : VerificationSetStatus) (force : Bool) :
    update_cached_seq e b force = e ∨ update_cached_seq e b force = b := by
  unfold update_cached_seq update_cached_verification
  split
  · exact Or.inr rfl
  · exact Or.inl rfl

theorem update_cached_seq_is_compiled (e b : VerificationSetStatus) (force : Bool)
    (hb : b.is_compiled = true) :
    (update_cached_seq e b force).is_compiled = true := by
  unfold update_cached_seq update_cached_verification
  cases force with
  | true => simp [hb]
  | false =>
    cases he : e.is_compiled with
    | true => simp [he]
    | false => simp [he, hb]

theorem update_cached_seq_unchanged (e b : VerificationSetStatus)
    (he : e.is_compiled = true) : update_cached_seq e b false = e := by
  unfold update_cached_seq update_cached_verification
  rw [he]
  rfl

theorem get_assigned_roles_of_build (cfg : GuildConfig)
    (builtins : String → Option VerificationRule)
    (parse : String → Except String VerificationRule)
    (a : List (String × RoleId × SystemTime))
    (c : List (String × String × SystemTime))
    (set : VerificationSet) (info : List (String × RoleId))
    (h : build_for_guild cfg builtins parse a c = .Compiled set info)
    (eval : String → VerificationRule → Bool) :
    (get_assigned_roles (VerificationSetStatus.Compiled set info) eval).isSome
      = true := by
  unfold get_assigned_roles
  dsimp only
  rw [Option.isSome_map']
  apply collectAssigned_isSome
  intro q hq
  simp only [List.mem_map] at hq
  obtain ⟨p, hp, hpq⟩ := hq
  refine build_for_guild_compiled_info cfg builtins parse a c set info h q.1 ?_
  simp only [List.mem_map]
  exact ⟨p, hp, by rw [← hpq]⟩

/-! ### The claims -/

/-- Claim C1: for every tenant cache entry, the only status transitions ever
performed are `NotCompiled → {Error, Compiled}` or
`{Error, Compiled} → {Error, Compiled}`: a freshly built compile result is
never `NotCompiled`, a non-forced update leaves an entry that is already in a
terminal (`Error`/`Compiled`) state unchanged, and after any update the entry
is in a terminal state — so no update ever writes `NotCompiled` back. -/
theorem claim_C1_cache_transitions (cfg : GuildConfig)
    (builtins : String → Option VerificationRule)
    (parse : String → Except String VerificationRule)
    (a : List (String × RoleId × SystemTime))
    (c : List (String × String × SystemTime)) (force : Bool) :
    (build_for_guild cfg builtins parse a c).is_compiled = true
    ∧ (∀ e : VerificationSetStatus, e.is_compiled = true →
        update_cached_seq e (build_for_guild cfg builtins parse a c) false = e)
    ∧ (∀ e : VerificationSetStatus,
        (update_cached_seq e (build_for_guild cfg builtins parse a c) force).is_compiled
          = true) := by
  refine ⟨build_for_guild_is_compiled cfg builtins parse a c, ?_, ?_⟩
  · intro e he
    exact update_cached_seq_unchanged e _ he
  · intro e
    exact update_cached_seq_is_compiled e _ force
      (build_for_guild_is_compiled cfg builtins parse a c)

/-- Claim C1 witness: a terminal entry survives a non-forced update unchanged
on a concrete input. -/
theorem claim_C1_cache_transitions_witness :
    update_cached_seq (.Error "boom")
      (build_for_guild ⟨false, 0, 0, 0, 0⟩ (fun _ => none) (fun _ => .error "p") [] [])
      false = .Error "boom" :=
  (claim_C1_cache_transitions ⟨false, 0, 0, 0, 0⟩ (fun _ => none)
    (fun _ => .error "p") [] [] false).2.1 (.Error "boom") rfl

/-- Claim C9: any entry reachable through `update_cached_verification` (an
entry that starts `NotCompiled` or holds a previous `build_for_guild` result,
updated with a fresh `build_for_guild` result) is never `NotCompiled`
afterwards, so the `NotCompiled` branches of `get_assigned_roles`
(`unreachable!()`) and `explain_rule_set` (`unimplemented!()`) never execute:
both operations return a non-panicking result on the updated entry. -/
theorem claim_C9_no_notcompiled_panic (cfg : GuildConfig)
    (builtins : String → Option VerificationRule)
    (parse : String → Except String VerificationRule)
    (a : List (String × RoleId × SystemTime))
    (c : List (String × String × SystemTime))
    (e : VerificationSetStatus) (force : Bool)
    (he : e = .NotCompiled ∨ ∃ cfg2 builtins2 parse2 a2 c2,
      e = build_for_guild cfg2 builtins2 parse2 a2 c2) :
    (update_cached_seq e (build_for_guild cfg builtins parse a c) force
        ≠ .NotCompiled)
    ∧ (explain_rule_set
        (update_cached_seq e (build_for_guild cfg builtins parse a c) force)
        ≠ none)
    ∧ (∀ eval : String → VerificationRule → Bool,
        (get_assigned_roles
          (update_cached_seq e (build_for_guild cfg builtins parse a c) force)
          eval).isSome = true) := by
  have hcomp := update_cached_seq_is_compiled e
    (build_for_guild cfg builtins parse a c) force
    (build_for_guild_is_compiled cfg builtins parse a c)
  have hfrom := update_cached_seq_cases e
    (build_for_guild cfg builtins parse a c) force
  refine ⟨?_, ?_, ?_⟩
  · intro hnc
    rw [hnc] at hcomp
    cases hcomp
  · cases hs : update_cached_seq e (build_for_guild cfg builtins parse a c) force with
    | NotCompiled => rw [hs] at hcomp; cases hcomp
    | Error msg => simp [explain_rule_set]
    | Compiled set info => simp [explain_rule_set]
  · intro eval
    cases hs : update_cached_seq e (build_for_guild cfg builtins parse a c) force with
    | NotCompiled => rw [hs] at hcomp; cases hcomp
    | Error msg => rfl
    | Compiled set info =>
      rw [hs] at hfrom
      cases hfrom with
      | inl hse =>
        cases he with
        | inl henc => rw [henc] at hse; cases hse
        | inr hb =>
          obtain ⟨cfg2, builtins2, parse2, a2, c2, hb⟩ := hb
          rw [hb] at hse
          exact get_assigned_roles_of_build cfg2 builtins2 parse2 a2 c2 set info
            hse.symm eval
      | inr hsb =>
        exact get_assigned_roles_of_build cfg builtins parse a c set info
          hsb.symm eval


/-- Claim C9 witness: a fresh (`NotCompiled`) entry updated with a concrete
compile result supports `get_assigned_roles` without reaching a panicking
branch. -/
theorem claim_C9_no_notcompiled_panic_witness :
    (get_assigned_roles
      (update_cached_seq .NotCompiled
        (build_for_guild ⟨false, 0, 0, 0, 0⟩ (fun _ => some ⟨1, 1⟩)
          (fun _ => .error "p") [("a", 3, 0)] []) false)
      (fun _ _ => true)).isSome = true :=
  (claim_C9_no_notcompiled_panic ⟨false, 0, 0, 0, 0⟩ (fun _ => some ⟨1, 1⟩)
    (fun _ => .error "p") [("a", 3, 0)] [] .NotCompiled false (Or.inl rfl)).2.2
    (fun _ _ => true)

/-- Claim C2: when a prior recorded time exists for the key and `now` is
inside the cooldown window, `update_user_with_cooldown` fails with a cooldown
error carrying the remaining wait and mutates nothing; after the window has
elapsed it performs the update and persists the new timestamp. -/
theorem claim_C2_cooldown_gate {M : Type} (cooldown now last : Nat) (upd : M → M)
    (s : CooldownState M) (hc : s.cell = some last) :
    (now < last + cooldown →
      (update_user_with_cooldown cooldown now upd s).1 = s
      ∧ ∃ pre post, (update_user_with_cooldown cooldown now upd s).2
          = some (pre ++ englishTimeDiff now (last + cooldown) ++ post))
    ∧ (last + cooldown ≤ now →
      update_user_with_cooldown cooldown now upd s
        = (⟨upd s.member, some now, some now⟩, none)) := by
  unfold update_user_with_cooldown
  rw [hc]
  dsimp only
  constructor
  · intro h
    rw [if_pos h]
    exact ⟨rfl, "You can only update your roles once every "
      ++ toEnglishTime cooldown ++ ". Try again in ", ".", rfl⟩
  · intro h
    rw [if_neg (Nat.not_lt.mpr h)]

/-- Claim C2 witness: at concrete times, a call inside the window leaves the
state untouched. -/
theorem claim_C2_cooldown_gate_witness :
    (update_user_with_cooldown 10 15 (fun m => m + 1)
      (CooldownState.mk (0 : Nat) (some 8) (some 8))).1
      = CooldownState.mk (0 : Nat) (some 8) (some 8) :=
  ((claim_C2_cooldown_gate 10 15 8 (fun m => m + 1)
    (CooldownState.mk (0 : Nat) (some 8) (some 8)) rfl).1 (by decide)).1

/-- Claim C4: with limits enabled, a configuration whose active-rule count
exceeds the configured maximum compiles to an `Error` whose message contains
both the observed count and the maximum; with limits disabled, the limit
checks are skipped entirely, the result being exactly the outcome of
compilation (so that limit `Error` cannot arise). -/
theorem claim_C4_active_limit (cfg : GuildConfig)
    (builtins : String → Option VerificationRule)
    (parse : String → Except String VerificationRule)
    (a : List (String × RoleId × SystemTime))
    (c : List (String × String × SystemTime))
    (hl : cfg.limitsEnabled = true) (hcount : a.length > cfg.maxAssigned) :
    (∃ pre mid post, build_for_guild cfg builtins parse a c
        = .Error (pre ++ toString a.length ++ mid
            ++ toString cfg.maxAssigned ++ post))
    ∧ (∀ cfg2 : GuildConfig, cfg2.limitsEnabled = false →
        build_for_guild cfg2 builtins parse a c
          = match VerificationSet.compile builtins parse
              (guildActiveNames (get_configuration_internal a c).1)
              (guildGetCustom (get_configuration_internal a c).1) with
            | .ok set =>
              .Compiled set (guildActiveInfo (get_configuration_internal a c).1)
            | .error e => .Error e) := by
  constructor
  · have hcnt : (get_configuration_internal a c).2.1 = a.length := rfl
    unfold build_for_guild
    dsimp only
    rw [hcnt, hl]
    rw [if_pos (by simpa using hcount)]
    exact ⟨"Too many roles are configured to be assigned. (",
      " roles are active, maximum is ", ".)", rfl⟩
  · intro cfg2 h2
    unfold build_for_guild
    dsimp only
    rw [h2]
    simp only [Bool.false_and, if_false]
    cases VerificationSet.compile builtins parse
        (guildActiveNames (get_configuration_internal a c).1)
        (guildGetCustom (get_configuration_internal a c).1) with
    | ok set => simp
    | error e => simp

/-- Claim C4 witness: one active rule against a maximum of zero yields the
limit error on a concrete input. -/
theorem claim_C4_active_limit_witness :
    ∃ pre mid post,
      build_for_guild ⟨true, 0, 5, 5, 5⟩ (fun _ => some ⟨1, 2⟩)
        (fun _ => .error "parse") [("a", 3, 10)] []
        = .Error (pre ++ toString ([("a", (3 : RoleId), (10 : SystemTime))].length)
            ++ mid ++ toString (0 : Nat) ++ post) :=
  (claim_C4_active_limit ⟨true, 0, 5, 5, 5⟩ (fun _ => some ⟨1, 2⟩)
    (fun _ => .error "parse") [("a", 3, 10)] [] rfl (by decide)).1

theorem erase_foldl_eq_sdiff (config : List (String × ConfiguredRole))
    (s : Finset Nat) :
    config.foldl
      (fun rs p => match p.2.role_id with
        | some id => rs.erase id
        | none => rs) s
      = s \ managedTargets config := by
  induction config generalizing s with
  | nil => simp [managedTargets]
  | cons q t ih =>
    rw [List.foldl_cons]
    cases hq : q.2.role_id with
    | none =>
      rw [ih]
      simp [managedTargets, List.filterMap_cons, hq]
    | some id =>
      rw [ih]
      simp [managedTargets, List.filterMap_cons, hq, Finset.erase_eq,
        sdiff_sdiff, Finset.insert_eq]

theorem option_ite_getD {α : Type} [DecidableEq α] (a b : α) :
    (if a ≠ b then some b else none).getD a = b := by
  by_cases h : a = b
  · simp [h]
  · simp [h]

/-- Claim C7: `assign_roles` with no identity computes a desired membership
set equal to the member's current memberships minus every group that is the
configured target of some rule, and keeps every membership that is not a
configured target. -/
theorem claim_C7_unlinked_removes_targets (canAccess doSetNick : Bool)
    (targetNickname : Option String) (config : List (String × ConfiguredRole))
    (assigned : List AssignedRole) (member : MemberState) :
    ((assign_roles canAccess doSetNick targetNickname config assigned none
        member).newRoles.getD member.roles)
      = member.roles \ managedTargets config
    ∧ ∀ r ∈ member.roles, r ∉ managedTargets config →
        r ∈ ((assign_roles canAccess doSetNick targetNickname config assigned none
          member).newRoles.getD member.roles) := by
  have hmain : ((assign_roles canAccess doSetNick targetNickname config assigned
      none member).newRoles.getD member.roles)
      = member.roles \ managedTargets config := by
    unfold assign_roles
    dsimp only
    rw [option_ite_getD]
    unfold computed_roles
    exact erase_foldl_eq_sdiff config member.roles
  refine ⟨hmain, ?_⟩
  intro r hr hnr
  rw [hmain]
  exact Finset.mem_sdiff.mpr ⟨hr, hnr⟩

/-- Claim C7 witness: on a concrete member, the configured target is removed
and the unmanaged membership survives. -/
theorem claim_C7_unlinked_removes_targets_witness :
    (1 : Nat) ∈ ((assign_roles true true none
        [("a", ⟨some 2, none, 0⟩)] [] none
        ⟨{1, 2}, none⟩).newRoles.getD ({1, 2} : Finset Nat)) :=
  (claim_C7_unlinked_removes_targets true true none
    [("a", ⟨some 2, none, 0⟩)] [] ⟨{1, 2}, none⟩).2 1 (by decide) (by decide)

/-- Claim C8: when the computed desired membership set equals the member's
current memberships and the computed display name does not differ from the
member's current display name, `assign_roles` issues no external mutation. -/
theorem claim_C8_no_edit_when_unchanged (canAccess doSetNick : Bool)
    (targetNickname : Option String) (config : List (String × ConfiguredRole))
    (assigned : List AssignedRole) (robloxId : Option Nat) (member : MemberState)
    (hroles : computed_roles config assigned robloxId member.roles = member.roles)
    (hnick : targetNickname = member.nick) :
    (assign_roles canAccess doSetNick targetNickname config assigned robloxId
      member).editIssued = false := by
  unfold assign_roles
  simp [hroles, hnick]

/-- Claim C8 witness: on a concrete member with nothing to change, no edit is
issued. -/
theorem claim_C8_no_edit_when_unchanged_witness :
    (assign_roles true true (some "x") [] [] none
      ⟨{1}, some "x"⟩).editIssued = false :=
  claim_C8_no_edit_when_unchanged true true (some "x") [] [] none
    ⟨{1}, some "x"⟩ (by decide) rfl

/-- Claim C3, corrected: with limits enabled and an existing rule name,
`set_active_role` rejects exactly when the count of *other* active rules plus
one exceeds the configured maximum — the check counts this rule as if it were
being assigned even when the call clears the role (target group absent), so
clearing is not exempt from the limit check. -/
theorem claim_C3_assign_limit_check (cfg : GuildConfig)
    (hasBuiltin : String → Bool)
    (builtins : String → Option VerificationRule)
    (parse : String → Except String VerificationRule)
    (db : RolesDb) (rule_name : String) (discord_role : Option RoleId)
    (now : SystemTime) (hl : cfg.limitsEnabled = true)
    (hex : (hasBuiltin rule_name || db.custom.any (fun p => p.1 == rule_name))
      = true) :
    ((set_active_role cfg hasBuiltin builtins parse db rule_name discord_role
        now).isOk = false)
      ↔ (db.active.filter (fun p => p.1 != rule_name)).length + 1
          > cfg.maxAssigned := by
  unfold set_active_role
  dsimp only
  rw [hex, hl]
  by_cases hcnt : (db.active.filter (fun p => p.1 != rule_name)).length + 1
      > cfg.maxAssigned
  · simp [hcnt, Except.isOk, Except.toBool]
  · simp [hcnt, Except.isOk, Except.toBool]

/-- Claim C3 counterexample: with a maximum of 1 and two active rules,
clearing rule `a` (target group absent) is rejected by the limit check even
though the prospective active-rule count after the change (1) does not exceed
the maximum — refuting that clearing never fails the check. -/
theorem claim_C3_assign_limit_check_cex :
    ((set_active_role ⟨true, 1, 0, 0, 0⟩ (fun _ => true) (fun _ => none)
        (fun _ => .error "p") ⟨[("a", 1, 0), ("b", 2, 0)], []⟩ "a" none 5).isOk
      = false)
    ∧ (deleteActive [("a", 1, 0), ("b", 2, 0)] "a").length ≤ 1 := by
  constructor
  · decide
  · decide

/-- Claim C3 witness: an assignment that would make two active rules against
a maximum of one is rejected, while the same call against a maximum of two is
accepted. -/
theorem claim_C3_assign_limit_check_witness :
    ((set_active_role ⟨true, 1, 0, 0, 0⟩ (fun _ => true) (fun _ => some ⟨0, 0⟩)
        (fun _ => .error "p") ⟨[("b", 2, 0)], []⟩ "a" (some 1) 5).isOk = false)
      ↔ ([("b", (2 : RoleId), (0 : SystemTime))].filter
          (fun p => p.1 != "a")).length + 1 > 1 :=
  claim_C3_assign_limit_check ⟨true, 1, 0, 0, 0⟩ (fun _ => true)
    (fun _ => some ⟨0, 0⟩) (fun _ => .error "p") ⟨[("b", 2, 0)], []⟩ "a"
    (some 1) 5 rfl rfl

theorem filter_ne_replaceActive (l : List (String × RoleId × SystemTime))
    (name : String) (rid : RoleId) (now : SystemTime) :
    (replaceActive l name rid now).filter (fun p => p.1 != name)
      = l.filter (fun p => p.1 != name) := by
  unfold replaceActive
  rw [List.filter_append]
  simp [List.filter_filter]

theorem filter_ne_deleteActive (l : List (String × RoleId × SystemTime))
    (name : String) :
    (deleteActive l name).filter (fun p => p.1 != name)
      = l.filter (fun p => p.1 != name) := by
  unfold deleteActive
  simp [List.filter_filter]

/-- Claim C6, corrected: a second `set_active_role` call with the same
arguments *and the same observed clock time* reproduces exactly the persisted
end state and cached compile result of the first call (for a clearing call the
timestamp plays no role at all); when the second call observes a later clock,
the persisted row differs in its `last_updated` field, which is set to the
time of the most recent call. -/
theorem claim_C6_idempotent_same_time (cfg : GuildConfig)
    (hasBuiltin : String → Bool)
    (builtins : String → Option VerificationRule)
    (parse : String → Except String VerificationRule)
    (db : RolesDb) (rule_name : String) (discord_role : Option RoleId)
    (now : SystemTime) (db1 : RolesDb) (cache1 : VerificationSetStatus)
    (h : set_active_role cfg hasBuiltin builtins parse db rule_name discord_role
      now = .ok (db1, cache1)) :
    set_active_role cfg hasBuiltin builtins parse db1 rule_name discord_role
      now = .ok (db1, cache1) := by
  unfold set_active_role at h
  dsimp only at h
  split at h
  · cases h
  · rename_i hex
    split at h
    · cases h
    · rename_i hcnt
      rw [Except.ok.injEq, Prod.mk.injEq] at h
      obtain ⟨hdb, hcache⟩ := h
      cases discord_role with
      | some rid =>
        have hfilter : db1.active.filter (fun p => p.1 != rule_name)
            = db.active.filter (fun p => p.1 != rule_name) := by
          rw [← hdb]
          exact filter_ne_replaceActive db.active rule_name rid now
        have hcustom : db1.custom = db.custom := by rw [← hdb]
        have hactive : replaceActive db1.active rule_name rid now = db1.active := by
          unfold replaceActive
          rw [hfilter, ← hdb]
          rfl
        unfold set_active_role
        dsimp only
        rw [hcustom]
        rw [if_neg hex]
        rw [hfilter]
        rw [if_neg hcnt]
        rw [hactive]
        rw [← hcache, ← hdb]
      | none =>
        have hfilter : db1.active.filter (fun p => p.1 != rule_name)
            = db.active.filter (fun p => p.1 != rule_name) := by
          rw [← hdb]
          exact filter_ne_deleteActive db.active rule_name
        have hcustom : db1.custom = db.custom := by rw [← hdb]
        have hactive : deleteActive db1.active rule_name = db1.active := by
          unfold deleteActive
          rw [hfilter, ← hdb]
          rfl
        unfold set_active_role
        dsimp only
        rw [hcustom]
        rw [if_neg hex]
        rw [hfilter]
        rw [if_neg hcnt]
        rw [hactive]
        rw [← hcache, ← hdb]

/-- Claim C6 counterexample: assigning rule `a` at time 0 and again at time 1
with identical arguments leaves an active row `("a", 5, 1)`, while a single
call leaves `("a", 5, 0)`: the persisted end states differ in the row's
`last_updated` value, refuting idempotence as stated. -/
theorem claim_C6_idempotent_same_time_cex :
    ((set_active_role ⟨false, 0, 0, 0, 0⟩ (fun _ => true) (fun _ => some ⟨0, 0⟩)
        (fun _ => .error "p") ⟨[], []⟩ "a" (some 5) 0).map (fun r => r.1)
      = .ok ⟨[("a", 5, 0)], []⟩)
    ∧ ((set_active_role ⟨false, 0, 0, 0, 0⟩ (fun _ => true) (fun _ => some ⟨0, 0⟩)
        (fun _ => .error "p") ⟨[("a", 5, 0)], []⟩ "a" (some 5) 1).map (fun r => r.1)
      = .ok ⟨[("a", 5, 1)], []⟩)
    ∧ (RolesDb.mk [("a", 5, 1)] [] ≠ RolesDb.mk [("a", 5, 0)] []) := by
  refine ⟨by decide, by decide, by decide⟩

/-- Claim C6 witness: repeating a concrete assignment with the same clock
value reproduces the first call's persisted and cached end state exactly. -/
theorem claim_C6_idempotent_same_time_witness :
    set_active_role ⟨false, 0, 0, 0, 0⟩ (fun _ => true) (fun _ => some ⟨0, 0⟩)
      (fun _ => .error "p") ⟨[("a", 5, 0)], []⟩ "a" (some 5) 0
      = .ok (⟨[("a", 5, 0)], []⟩, .Compiled ⟨[("a", ⟨0, 0⟩)]⟩ [("a", 5)]) :=
  claim_C6_idempotent_same_time ⟨false, 0, 0, 0, 0⟩ (fun _ => true)
    (fun _ => some ⟨0, 0⟩) (fun _ => .error "p") ⟨[], []⟩ "a" (some 5) 0
    ⟨[("a", 5, 0)], []⟩ (.Compiled ⟨[("a", ⟨0, 0⟩)]⟩ [("a", 5)]) (by decide)

/-! ### Association-list lemmas for the configuration map -/

theorem lookupRole_cons (q : String × ConfiguredRole)
    (t : List (String × ConfiguredRole)) (k : String) :
    lookupRole (q :: t) k
      = if (q.1 == k) = true then some q.2 else lookupRole t k := by
  by_cases h : (q.1 == k) = true
  · simp [lookupRole, h]
  · simp [lookupRole, h]

theorem lookupRole_append (m1 m2 : List (String × ConfiguredRole)) (k : String) :
    lookupRole (m1 ++ m2) k
      = match lookupRole m1 k with
        | some v => some v
        | none => lookupRole m2 k := by
  unfold lookupRole
  rw [List.find?_append]
  cases h : m1.find? (fun p => p.1 == k) with
  | none => simp [h]
  | some pr => simp [h]

theorem lookupRole_isSome_any (m : List (String × ConfiguredRole)) (k : String) :
    (lookupRole m k).isSome = m.any (fun p => p.1 == k) := by
  induction m with
  | nil => rfl
  | cons q t ih =>
    rw [lookupRole_cons]
    by_cases h : (q.1 == k) = true
    · simp [h]
    · simp [h, ih]

theorem mem_rKeys_iff_any (m : List (String × ConfiguredRole)) (k : String) :
    k ∈ rKeys m ↔ m.any (fun p => p.1 == k) = true := by
  unfold rKeys
  rw [List.any_eq_true]
  constructor
  · intro h
    obtain ⟨p, hp, hpk⟩ := List.mem_map.mp h
    exact ⟨p, hp, by simp [hpk]⟩
  · rintro ⟨p, hp, hpk⟩
    exact List.mem_map.mpr ⟨p, hp, by simpa using hpk⟩

theorem lookupRole_map_replace (m : List (String × ConfiguredRole)) (k : String)
    (v : ConfiguredRole) (k2 : String) :
    lookupRole (m.map (fun p => if p.1 == k then (k, v) else p)) k2
      = if k2 = k then (if (lookupRole m k).isSome = true then some v else none)
        else lookupRole m k2 := by
  induction m with
  | nil => by_cases h : k2 = k <;> simp [lookupRole, h]
  | cons q t ih =>
    simp only [List.map_cons, lookupRole_cons, ih]
    by_cases hq : (q.1 == k) = true
    · have hq2 : q.1 = k := by simpa using hq
      by_cases hk2 : k2 = k
      · subst hk2
        simp [hq, hq2]
      · have hk3 : ¬ k = k2 := fun h => hk2 h.symm
        simp [hq, hq2, hk2, hk3]
    · have hq2 : ¬ q.1 = k := by simpa using hq
      by_cases hk2 : k2 = k
      · subst hk2
        simp [hq, hq2]
      · simp [hq, hk2]

theorem rKeys_map_replace (m : List (String × ConfiguredRole)) (k : String)
    (v : ConfiguredRole) :
    rKeys (m.map (fun p => if p.1 == k then (k, v) else p)) = rKeys m := by
  unfold rKeys
  rw [List.map_map]
  apply List.map_congr_left
  intro p hp
  by_cases h : p.1 = k
  · simp [h]
  · simp [h]

theorem lookupRole_insertRole (m : List (String × ConfiguredRole)) (k : String)
    (v : ConfiguredRole) (k2 : String) :
    lookupRole (insertRole m k v) k2
      = if k2 = k then some v else lookupRole m k2 := by
  unfold insertRole
  by_cases hany : (m.any (fun p => p.1 == k)) = true
  · rw [if_pos hany, lookupRole_map_replace]
    rw [lookupRole_isSome_any, hany]
    by_cases hk2 : k2 = k
    · simp [hk2]
    · simp [hk2]
  · rw [if_neg hany, lookupRole_append]
    have hm : lookupRole m k = none := by
      rw [← Option.not_isSome_iff_eq_none]
      intro hs
      rw [lookupRole_isSome_any] at hs
      exact hany hs
    by_cases hk2 : k2 = k
    · subst hk2
      rw [hm]
      simp [lookupRole_cons]
    · cases h : lookupRole m k2 with
      | none =>
        have hk3 : (k == k2) = false := by simpa using fun h2 => hk2 h2.symm
        simp [lookupRole_cons, hk3, hk2, lookupRole]
      | some r =>
        simp [hk2]

theorem lookupRole_addCustomRule (m : List (String × ConfiguredRole))
    (k cond : String) (ts : SystemTime) (k2 : String) :
    lookupRole (addCustomRule m k cond ts) k2
      = if k2 = k then
          some (match lookupRole m k with
            | some r => applyCustom r cond ts
            | none => ⟨none, some cond, ts⟩)
        else lookupRole m k2 := by
  unfold addCustomRule
  cases hf : m.find? (fun p => p.1 == k) with
  | none =>
    have hm : lookupRole m k = none := by unfold lookupRole; rw [hf]; rfl
    rw [lookupRole_append, hm]
    by_cases hk2 : k2 = k
    · subst hk2
      rw [hm]
      simp [lookupRole_cons]
    · cases h : lookupRole m k2 with
      | none =>
        have hk3 : (k == k2) = false := by simpa using fun h2 => hk2 h2.symm
        simp [lookupRole_cons, hk3, hk2, lookupRole]
      | some r =>
        simp [hk2]
  | some pr =>
    have hm : lookupRole m k = some pr.2 := by unfold lookupRole; rw [hf]; rfl
    have hs : (lookupRole m k).isSome = true := by rw [hm]; rfl
    rw [lookupRole_map_replace, hm]
    by_cases hk2 : k2 = k
    · rw [if_pos hk2, if_pos hk2]
      simp
    · rw [if_neg hk2, if_neg hk2]

theorem rKeys_insertRole_nodup (m : List (String × ConfiguredRole)) (k : String)
    (v : ConfiguredRole) (h : (rKeys m).Nodup) :
    (rKeys (insertRole m k v)).Nodup := by
  unfold insertRole
  by_cases hany : (m.any (fun p => p.1 == k)) = true
  · rw [if_pos hany, rKeys_map_replace]
    exact h
  · rw [if_neg hany]
    unfold rKeys
    rw [List.map_append]
    rw [List.nodup_append]
    refine ⟨h, List.nodup_singleton k, ?_⟩
    intro x hx hx2
    have : x = k := by simpa using hx2
    subst this
    exact hany ((mem_rKeys_iff_any m x).mp hx)

theorem rKeys_addCustomRule_nodup (m : List (String × ConfiguredRole))
    (k cond : String) (ts : SystemTime) (h : (rKeys m).Nodup) :
    (rKeys (addCustomRule m k cond ts)).Nodup := by
  unfold addCustomRule
  cases hf : m.find? (fun p => p.1 == k) with
  | none =>
    unfold rKeys
    rw [List.map_append]
    rw [List.nodup_append]
    refine ⟨h, List.nodup_singleton k, ?_⟩
    intro x hx hx2
    have hxk : x = k := by simpa using hx2
    subst hxk
    have hm : lookupRole m x = none := by unfold lookupRole; rw [hf]; rfl
    have hx3 : (m.any (fun p => p.1 == x)) = true := (mem_rKeys_iff_any m x).mp hx
    have hfalse := lookupRole_isSome_any m x
    rw [hm, hx3] at hfalse
    simp at hfalse
  | some pr =>
    rw [rKeys_map_replace]
    exact h

theorem lookup_foldIns_not_mem (l : List (String × RoleId × SystemTime))
    (acc : List (String × ConfiguredRole)) (k : String)
    (h : k ∉ l.map (fun x => x.1)) :
    lookupRole
      (l.foldl (fun m x => insertRole m x.1 ⟨some x.2.1, none, x.2.2⟩) acc) k
      = lookupRole acc k := by
  induction l generalizing acc with
  | nil => rfl
  | cons x t ih =>
    rw [List.foldl_cons]
    simp only [List.map_cons, List.mem_cons] at h
    push_neg at h
    rw [ih _ h.2, lookupRole_insertRole, if_neg h.1]

theorem lookup_foldIns_mem (l : List (String × RoleId × SystemTime))
    (acc : List (String × ConfiguredRole)) (k : String) (rid : RoleId)
    (ts : SystemTime) (hnd : (l.map (fun x => x.1)).Nodup)
    (hmem : (k, rid, ts) ∈ l) :
    lookupRole
      (l.foldl (fun m x => insertRole m x.1 ⟨some x.2.1, none, x.2.2⟩) acc) k
      = some ⟨some rid, none, ts⟩ := by
  revert hnd hmem
  induction l generalizing acc with
  | nil =>
    intro hnd hmem
    cases hmem
  | cons x t ih =>
    intro hnd hmem
    rw [List.foldl_cons]
    have hnd2 : (t.map (fun x => x.1)).Nodup ∧ x.1 ∉ t.map (fun x => x.1) := by
      rw [List.map_cons, List.nodup_cons] at hnd
      exact ⟨hnd.2, hnd.1⟩
    rcases List.mem_cons.mp hmem with heq | htail
    · cases heq
      rw [lookup_foldIns_not_mem t _ k hnd2.2, lookupRole_insertRole, if_pos rfl]
    · have hne : k ≠ x.1 := by
        intro he
        apply hnd2.2
        rw [← he]
        exact List.mem_map.mpr ⟨(k, rid, ts), htail, rfl⟩
      exact ih _ hnd2.1 htail

theorem lookup_foldCus_not_mem (l : List (String × String × SystemTime))
    (acc : List (String × ConfiguredRole)) (k : String)
    (h : k ∉ l.map (fun x => x.1)) :
    lookupRole (l.foldl (fun m x => addCustomRule m x.1 x.2.1 x.2.2) acc) k
      = lookupRole acc k := by
  induction l generalizing acc with
  | nil => rfl
  | cons x t ih =>
    rw [List.foldl_cons]
    simp only [List.map_cons, List.mem_cons] at h
    push_neg at h
    rw [ih _ h.2, lookupRole_addCustomRule, if_neg h.1]

theorem lookup_foldCus_mem (l : List (String × String × SystemTime))
    (acc : List (String × ConfiguredRole)) (k cond : String) (ts : SystemTime)
    (hnd : (l.map (fun x => x.1)).Nodup) (hmem : (k, cond, ts) ∈ l) :
    lookupRole (l.foldl (fun m x => addCustomRule m x.1 x.2.1 x.2.2) acc) k
      = some (match lookupRole acc k with
          | some r => applyCustom r cond ts
          | none => ⟨none, some cond, ts⟩) := by
  revert hnd hmem
  induction l generalizing acc with
  | nil =>
    intro hnd hmem
    cases hmem
  | cons x t ih =>
    intro hnd hmem
    rw [List.foldl_cons]
    have hnd2 : (t.map (fun x => x.1)).Nodup ∧ x.1 ∉ t.map (fun x => x.1) := by
      rw [List.map_cons, List.nodup_cons] at hnd
      exact ⟨hnd.2, hnd.1⟩
    rcases List.mem_cons.mp hmem with heq | htail
    · cases heq
      rw [lookup_foldCus_not_mem t _ k hnd2.2, lookupRole_addCustomRule, if_pos rfl]
    · have hne : k ≠ x.1 := by
        intro he
        apply hnd2.2
        rw [← he]
        exact List.mem_map.mpr ⟨(k, cond, ts), htail, rfl⟩
      rw [ih _ hnd2.1 htail, lookupRole_addCustomRule, if_neg hne]

theorem rKeys_foldIns_nodup (l : List (String × RoleId × SystemTime))
    (acc : List (String × ConfiguredRole)) (hacc : (rKeys acc).Nodup) :
    (rKeys
      (l.foldl (fun m x => insertRole m x.1 ⟨some x.2.1, none, x.2.2⟩) acc)).Nodup := by
  induction l generalizing acc with
  | nil => exact hacc
  | cons x t ih =>
    rw [List.foldl_cons]
    exact ih _ (rKeys_insertRole_nodup _ _ _ hacc)

theorem rKeys_foldCus_nodup (l : List (String × String × SystemTime))
    (acc : List (String × ConfiguredRole)) (hacc : (rKeys acc).Nodup) :
    (rKeys (l.foldl (fun m x => addCustomRule m x.1 x.2.1 x.2.2) acc)).Nodup := by
  induction l generalizing acc with
  | nil => exact hacc
  | cons x t ih =>
    rw [List.foldl_cons]
    exact ih _ (rKeys_addCustomRule_nodup _ _ _ _ hacc)

/-- Claim C5: for database rows unique per rule name (as the two relations
guarantee), `get_configuration_internal` returns exactly one slot per rule
name appearing in either relation (keys are present iff the name occurs, and
never duplicated), and a name present in both relations gets the target group
of the active row, the condition of the custom row, and the later of the two
`last_updated` times. -/
theorem claim_C5_configuration_join (a : List (String × RoleId × SystemTime))
    (c : List (String × String × SystemTime))
    (ha : (a.map (fun x => x.1)).Nodup) (hc : (c.map (fun x => x.1)).Nodup) :
    ((rKeys (get_configuration_internal a c).1).Nodup)
    ∧ (∀ n : String,
        (lookupRole (get_configuration_internal a c).1 n).isSome = true
          ↔ (n ∈ a.map (fun x => x.1) ∨ n ∈ c.map (fun x => x.1)))
    ∧ (∀ (n : String) (rid : RoleId) (ta : SystemTime) (cond : String)
        (tc : SystemTime), (n, rid, ta) ∈ a → (n, cond, tc) ∈ c →
        lookupRole (get_configuration_internal a c).1 n
          = some ⟨some rid, some cond, max ta tc⟩) := by
  have hmap : (get_configuration_internal a c).1
      = c.foldl (fun m x => addCustomRule m x.1 x.2.1 x.2.2)
          (a.foldl (fun m x => insertRole m x.1 ⟨some x.2.1, none, x.2.2⟩) []) := rfl
  refine ⟨?_, ?_, ?_⟩
  · rw [hmap]
    exact rKeys_foldCus_nodup c _ (rKeys_foldIns_nodup a [] List.nodup_nil)
  · intro n
    constructor
    · intro hs
      by_contra hno
      push_neg at hno
      rw [hmap, lookup_foldCus_not_mem c _ n hno.2,
        lookup_foldIns_not_mem a [] n hno.1] at hs
      cases hs
    · intro hmem
      by_cases hcmem : n ∈ c.map (fun x => x.1)
      · obtain ⟨x, hx, hxn⟩ := List.mem_map.mp hcmem
        rw [hmap, lookup_foldCus_mem c _ n x.2.1 x.2.2 hc (by rw [← hxn]; exact hx)]
        rfl
      · have hamem : n ∈ a.map (fun x => x.1) := by
          rcases hmem with h1 | h2
          · exact h1
          · exact absurd h2 hcmem
        obtain ⟨x, hx, hxn⟩ := List.mem_map.mp hamem
        rw [hmap, lookup_foldCus_not_mem c _ n hcmem,
          lookup_foldIns_mem a [] n x.2.1 x.2.2 ha (by rw [← hxn]; exact hx)]
        rfl
  · intro n rid ta cond tc hamem hcmem
    rw [hmap, lookup_foldCus_mem c _ n cond tc hc hcmem,
      lookup_foldIns_mem a [] n rid ta ha hamem]
    unfold applyCustom
    by_cases hlt : ta < tc
    · simp [hlt, Nat.max_eq_right (Nat.le_of_lt hlt)]
    · simp [hlt, Nat.max_eq_left (Nat.le_of_not_lt hlt)]

/-- Claim C5 witness: a name present in both relations gets the active row's
group, the custom row's condition, and the later `last_updated`. -/
theorem claim_C5_configuration_join_witness :
    lookupRole (get_configuration_internal [("a", 3, 10)] [("a", "cond", 20)]).1 "a"
      = some ⟨some 3, some "cond", max 10 20⟩ :=
  (claim_C5_configuration_join [("a", 3, 10)] [("a", "cond", 20)]
    (by decide) (by decide)).2.2 "a" 3 10 "cond" 20 (by decide) (by decide)

/-- Claim C10: every `Compiled` cache entry produced by `build_for_guild`
carries a rule-name → target-group map containing an entry for every rule
name of the compiled `VerificationSet` (both are built from the active rule
names of the same configuration snapshot), so the direct map index in
`get_assigned_roles` always finds a key. -/
theorem claim_C10_roleinfo_covers_set (cfg : GuildConfig)
    (builtins : String → Option VerificationRule)
    (parse : String → Except String VerificationRule)
    (a : List (String × RoleId × SystemTime))
    (c : List (String × String × SystemTime))
    (set : VerificationSet) (info : List (String × RoleId))
    (h : build_for_guild cfg builtins parse a c = .Compiled set info) :
    ∀ n ∈ set.rules.map (fun p => p.1), ∃ rid, lookupRoleId info n = some rid := by
  intro n hn
  have hs := build_for_guild_compiled_info cfg builtins parse a c set info h n hn
  exact Option.isSome_iff_exists.mp hs

/-- Claim C10 witness: on a concrete compiled configuration, the single rule
name of the set is found in the role map. -/
theorem claim_C10_roleinfo_covers_set_witness :
    ∃ rid, lookupRoleId [("a", 3)] "a" = some rid :=
  claim_C10_roleinfo_covers_set ⟨false, 0, 0, 0, 0⟩ (fun _ => some ⟨1, 2⟩)
    (fun _ => .error "parse") [("a", 3, 10)] [] ⟨[("a", ⟨1, 2⟩)]⟩ [("a", 3)]
    (by decide) "a" (by decide)
